import Mathlib

/-!
Shallow embedding of the asynchronous filesystem bridge of the `slither`
runtime (src/builtins/fs.rs) and of the async-iterator prototype
(src/intrinsics/async_iterator_prototype.rs), together with theorems
settling the specification claims about them.

Modelling conventions:
* Rust `Value` is modelled by an inductive with the constructors the
  claims need (`string`, an error object carrying its message, a promise
  capability, and an opaque `other` for any non-string value).
* The promise capability obtained from `new_promise_capability` is a
  record carrying two oracles telling whether invoking its resolve /
  reject callable succeeds (the Rust code `.unwrap()`s those calls).
* The global `RESPONSES: Mutex<HashMap<Token, FsResponse>>` is modelled
  as an association list passed explicitly; `Token` is a `Nat`.
* Side effects of a builtin (reactor registration, registry insertion,
  work submitted to the pool) are recorded as an explicit trace, in the
  order the Rust code performs them.
* Rust panics (`unwrap` on a missing response or on a failed
  resolve/reject call) are modelled by `Option`: `none` is the fatal
  abort path.
-/

/-- A promise capability: the opaque value returned by
`new_promise_capability`, carrying a user-observable promise and its
resolve/reject callables.  `resolveOk` / `rejectOk` record whether
invoking the corresponding callable succeeds (the code unwraps the
result of each call). -/
structure PromiseCap where
  id : Nat
  resolveOk : Bool
  rejectOk : Bool
deriving DecidableEq, Repr

/-- Interpreter values, restricted to the constructors the fs builtins
inspect or produce: strings, error objects (as made by `new_error`),
promise values, and anything else. -/
inductive Value where
  | string : String → Value
  | error : String → Value
  | promise : PromiseCap → Value
  | other : Nat → Value
deriving DecidableEq, Repr

/-- `new_error(msg)` from src/value.rs: constructs a fresh error object
carrying `msg`. -/
def new_error (msg : String) : Value := Value.error msg

/-- `FsResponse` from src/builtins/fs.rs: the tagged result a worker
stores for a completed operation. -/
inductive FsResponse where
  | Read : String → FsResponse
  | Success : FsResponse
  | Error : String → FsResponse
deriving DecidableEq, Repr

/-- The response store: the contents of the global
`RESPONSES: Mutex<HashMap<Token, FsResponse>>`, as an association list
keyed by token. -/
abbrev ResponseStore := List (Nat × FsResponse)

/-- `HashMap::remove` semantics, lookup half: the response stored under
`token`, if any. -/
def storeLookup (token : Nat) : ResponseStore → Option FsResponse
  | [] => none
  | (t, r) :: rest => if t = token then some r else storeLookup token rest

/-- `HashMap::remove` semantics, removal half: the store with the entry
for `token` deleted. -/
def storeRemove (token : Nat) (store : ResponseStore) : ResponseStore :=
  store.filter (fun e => e.1 ≠ token)

/-- One invocation of a promise's settlement callables:
`promise.get_slot("resolve").call(..)` or
`promise.get_slot("reject").call(..)`, with the argument vector passed. -/
inductive SettleCall where
  | resolve : List Value → SettleCall
  | reject : List Value → SettleCall
deriving DecidableEq, Repr

/-- Outcome of a non-panicking run of the settlement handler: the
response store after the `remove`, and the settlement calls made, in
order. -/
structure HandleResult where
  store : ResponseStore
  calls : List SettleCall
deriving DecidableEq, Repr

/-- `handle` from src/builtins/fs.rs: the settlement handler.  Removes
the response for `token` from the store (`.remove(&token).unwrap()`:
`none` models the panic when it is absent), matches on the variant, and
invokes exactly one of resolve/reject, unwrapping the call's result
(`none` models the panic when the call fails). -/
def handle (store : ResponseStore) (token : Nat) (promise : PromiseCap) :
    Option HandleResult :=
  match storeLookup token store with
  | none => none
  | some fsr =>
    let store' := storeRemove token store
    match fsr with
    | FsResponse.Read s =>
      if promise.resolveOk then some ⟨store', [SettleCall.resolve [Value.string s]]⟩
      else none
    | FsResponse.Success =>
      if promise.resolveOk then some ⟨store', [SettleCall.resolve []]⟩
      else none
    | FsResponse.Error s =>
      if promise.rejectOk then some ⟨store', [SettleCall.reject [new_error s]]⟩
      else none

/-- Whether the settlement call the stored response demands would
succeed for this promise capability: `Read`/`Success` use resolve,
`Error` uses reject. -/
def settleOk (promise : PromiseCap) : FsResponse → Bool
  | FsResponse.Read _ => promise.resolveOk
  | FsResponse.Success => promise.resolveOk
  | FsResponse.Error _ => promise.rejectOk

/-- A fixed promise capability whose resolve and reject calls both
succeed; used by concrete instantiations. -/
def pOk : PromiseCap := ⟨0, true, true⟩

/-- C1: whenever the settlement handler completes without aborting, it
has invoked exactly one of the promise's resolve/reject callables,
exactly one time — never zero times and never twice. -/
theorem handle_settles_exactly_once (store : ResponseStore) (token : Nat)
    (promise : PromiseCap) (res : HandleResult)
    (h : handle store token promise = some res) :
    res.calls.length = 1 := by
  unfold handle at h
  cases hs : storeLookup token store with
  | none => rw [hs] at h; exact absurd h (by simp)
  | some fsr =>
    rw [hs] at h
    cases fsr with
    | Read s =>
      by_cases hr : promise.resolveOk <;> simp [hr] at h <;> simp [← h]
    | Success =>
      by_cases hr : promise.resolveOk <;> simp [hr] at h <;> simp [← h]
    | Error s =>
      by_cases hr : promise.rejectOk <;> simp [hr] at h <;> simp [← h]

/-- Witness for C1 at a concrete store and token. -/
theorem handle_settles_exactly_once_witness :
    handle [(0, FsResponse.Success)] 0 pOk = some ⟨[], [SettleCall.resolve []]⟩ ∧
    (HandleResult.mk [] [SettleCall.resolve []]).calls.length = 1 :=
  ⟨rfl, handle_settles_exactly_once [(0, FsResponse.Success)] 0 pOk
    ⟨[], [SettleCall.resolve []]⟩ rfl⟩

/-- C3: the settlement handler maps `Read(content)` to a resolve call
with the content as a string value, `Success` to a resolve call with no
value, and `Error(message)` to a reject call with a newly constructed
error object carrying the message. -/
theorem handle_settlement_mapping (store : ResponseStore) (token : Nat)
    (promise : PromiseCap) :
    (∀ s, storeLookup token store = some (FsResponse.Read s) →
      promise.resolveOk = true →
      handle store token promise =
        some ⟨storeRemove token store, [SettleCall.resolve [Value.string s]]⟩) ∧
    (storeLookup token store = some FsResponse.Success →
      promise.resolveOk = true →
      handle store token promise =
        some ⟨storeRemove token store, [SettleCall.resolve []]⟩) ∧
    (∀ s, storeLookup token store = some (FsResponse.Error s) →
      promise.rejectOk = true →
      handle store token promise =
        some ⟨storeRemove token store, [SettleCall.reject [new_error s]]⟩) := by
  refine ⟨fun s hs hr => ?_, fun hs hr => ?_, fun s hs hr => ?_⟩ <;>
    unfold handle <;> rw [hs] <;> simp [hr]

/-- Witness for C3 at a concrete store holding each kind of response. -/
theorem handle_settlement_mapping_witness :
    handle [(1, FsResponse.Read "hi")] 1 pOk =
      some ⟨[], [SettleCall.resolve [Value.string "hi"]]⟩ ∧
    handle [(2, FsResponse.Error "nope")] 2 pOk =
      some ⟨[], [SettleCall.reject [new_error "nope"]]⟩ :=
  ⟨(handle_settlement_mapping [(1, FsResponse.Read "hi")] 1 pOk).1 "hi" rfl rfl,
   (handle_settlement_mapping [(2, FsResponse.Error "nope")] 2 pOk).2.2 "nope" rfl rfl⟩

/-- C7: the settlement handler removes (takes ownership of) the response
for its token; a missing response is fatal (abort, not a user error); a
failing resolve/reject invocation is fatal; and when the store holds a
response for the token and the demanded settlement call succeeds,
neither fatal branch is reached. -/
theorem handle_takes_response_and_fatal_branches (store : ResponseStore)
    (token : Nat) (promise : PromiseCap) :
    (∀ res, handle store token promise = some res →
      res.store = storeRemove token store) ∧
    (storeLookup token store = none → handle store token promise = none) ∧
    (∀ r, storeLookup token store = some r → settleOk promise r = false →
      handle store token promise = none) ∧
    (∀ r, storeLookup token store = some r → settleOk promise r = true →
      (handle store token promise).isSome = true) := by
  refine ⟨fun res h => ?_, fun hs => ?_, fun r hs hk => ?_, fun r hs hk => ?_⟩
  · unfold handle at h
    cases hs : storeLookup token store with
    | none => rw [hs] at h; exact absurd h (by simp)
    | some fsr =>
      rw [hs] at h
      cases fsr with
      | Read s =>
        by_cases hr : promise.resolveOk <;> simp [hr] at h <;> simp [← h]
      | Success =>
        by_cases hr : promise.resolveOk <;> simp [hr] at h <;> simp [← h]
      | Error s =>
        by_cases hr : promise.rejectOk <;> simp [hr] at h <;> simp [← h]
  · unfold handle; rw [hs]
  · unfold handle; rw [hs]
    cases r with
    | Read s => simp [settleOk] at hk; simp [hk]
    | Success => simp [settleOk] at hk; simp [hk]
    | Error s => simp [settleOk] at hk; simp [hk]
  · unfold handle; rw [hs]
    cases r with
    | Read s => simp [settleOk] at hk; simp [hk]
    | Success => simp [settleOk] at hk; simp [hk]
    | Error s => simp [settleOk] at hk; simp [hk]

/-- Witness for C7: at a concrete store, the non-fatal precondition
yields a settlement, and a missing response yields the fatal branch. -/
theorem handle_takes_response_witness :
    (handle [(3, FsResponse.Error "x")] 3 pOk).isSome = true ∧
    handle [] 3 pOk = none :=
  ⟨(handle_takes_response_and_fatal_branches [(3, FsResponse.Error "x")] 3
      pOk).2.2.2 (FsResponse.Error "x") rfl rfl,
   (handle_takes_response_and_fatal_branches [] 3 pOk).2.1 rfl⟩

/-- Kinds of worker closures the builtins submit to the pool: which
blocking syscall the closure performs. -/
inductive WorkerKind where
  | read
  | write
  | remove
deriving DecidableEq, Repr

/-- Observable side effects a builtin performs, in program order:
obtaining a promise capability (`new_promise_capability`), registering
the readiness registration with the reactor
(`agent.mio.register(..)`), inserting the pending operation into the
token registry (`agent.mio_map.borrow_mut().insert(..)`), and
submitting a worker closure to the pool (`agent.pool.execute(..)`,
capturing owned copies of the listed strings). -/
inductive Effect where
  | promiseCreate : PromiseCap → Effect
  | mioRegister : Nat → Effect
  | mioMapInsert : Nat → PromiseCap → Effect
  | poolExecute : WorkerKind → Nat → List String → Effect
deriving DecidableEq, Repr

/-- The token registry: the contents of `agent.mio_map`, an association
list from token to the pending operation's promise (the
`MioMapType::FS(registration, promise)` entry, with the registration
elided). -/
abbrev MioMap := List (Nat × PromiseCap)

/-- `HashMap::insert` semantics for the token registry: replace the
entry under the key if present, otherwise append. -/
def mapInsert (token : Nat) (promise : PromiseCap) (m : MioMap) : MioMap :=
  if m.any (fun e => e.1 = token) then
    m.map (fun e => if e.1 = token then (token, promise) else e)
  else m ++ [(token, promise)]

/-- `Token(agent.mio_map.borrow().len())` from src/builtins/fs.rs: the
token chosen for a new operation is the current size of the token
registry. -/
def allocToken (m : MioMap) : Nat := m.length

deriving instance DecidableEq for Except

/-- The slice of the `Agent` the fs builtins touch: the token registry,
and the outcome `new_promise_capability(agent, ..)` would produce
(an oracle for the external promise machinery). -/
structure Agent where
  mio_map : MioMap
  newPromise : Except Value PromiseCap
deriving DecidableEq, Repr

/-- Result of one builtin call: the value returned (or the error
thrown), the token registry afterwards, and the trace of effects
performed, in order. -/
structure BuiltinOutcome where
  result : Except Value Value
  mio_map : MioMap
  effects : List Effect
deriving DecidableEq, Repr

/-- `read_file` from src/builtins/fs.rs.  If `args.get(0)` is a string,
obtain a promise capability (propagating its failure with `?`), pick
the token as the registry's current size, register with the reactor,
insert into the registry, submit the read worker capturing an owned
copy of the filename, and return the promise; otherwise throw
`new_error("filename must be a string")`. -/
def read_file (agent : Agent) (args : List Value) : BuiltinOutcome :=
  match args.get? 0 with
  | some (Value.string filename) =>
    match agent.newPromise with
    | Except.error e => ⟨Except.error e, agent.mio_map, []⟩
    | Except.ok promise =>
      let token := allocToken agent.mio_map
      { result := Except.ok (Value.promise promise)
        mio_map := mapInsert token promise agent.mio_map
        effects := [Effect.promiseCreate promise, Effect.mioRegister token,
                    Effect.mioMapInsert token promise,
                    Effect.poolExecute WorkerKind.read token [filename]] }
  | _ => ⟨Except.error (new_error "filename must be a string"), agent.mio_map, []⟩

/-- `write_file` from src/builtins/fs.rs.  Checks `args.get(0)` (the
filename) first, then `args.get(1)` (the contents); on success the
write worker captures owned copies of both strings. -/
def write_file (agent : Agent) (args : List Value) : BuiltinOutcome :=
  match args.get? 0 with
  | some (Value.string filename) =>
    match args.get? 1 with
    | some (Value.string contents) =>
      match agent.newPromise with
      | Except.error e => ⟨Except.error e, agent.mio_map, []⟩
      | Except.ok promise =>
        let token := allocToken agent.mio_map
        { result := Except.ok (Value.promise promise)
          mio_map := mapInsert token promise agent.mio_map
          effects := [Effect.promiseCreate promise, Effect.mioRegister token,
                      Effect.mioMapInsert token promise,
                      Effect.poolExecute WorkerKind.write token [filename, contents]] }
    | _ => ⟨Except.error (new_error "contents must be a string"), agent.mio_map, []⟩
  | _ => ⟨Except.error (new_error "filename must be a string"), agent.mio_map, []⟩

/-- `remove_file` from src/builtins/fs.rs: same shape as `read_file`,
submitting the remove worker. -/
def remove_file (agent : Agent) (args : List Value) : BuiltinOutcome :=
  match args.get? 0 with
  | some (Value.string filename) =>
    match agent.newPromise with
    | Except.error e => ⟨Except.error e, agent.mio_map, []⟩
    | Except.ok promise =>
      let token := allocToken agent.mio_map
      { result := Except.ok (Value.promise promise)
        mio_map := mapInsert token promise agent.mio_map
        effects := [Effect.promiseCreate promise, Effect.mioRegister token,
                    Effect.mioMapInsert token promise,
                    Effect.poolExecute WorkerKind.remove token [filename]] }
  | _ => ⟨Except.error (new_error "filename must be a string"), agent.mio_map, []⟩

/-- Effects a worker closure performs, in order: inserting its response
into the response store under its token, and raising the readiness
signal for its token (`set_readiness.set_readiness(Ready::readable())`). -/
inductive WorkerEffect where
  | insertResponse : Nat → FsResponse → WorkerEffect
  | setReadiness : Nat → WorkerEffect
deriving DecidableEq, Repr

/-- The closure `read_file` submits to the pool, as a function of the
outcome of `std::fs::read_to_string(filename)` (an error carries its
textual rendering, `format!("{}", e)`). -/
def read_worker (token : Nat) (outcome : Except String String) :
    List WorkerEffect :=
  match outcome with
  | Except.ok s =>
    [WorkerEffect.insertResponse token (FsResponse.Read s),
     WorkerEffect.setReadiness token]
  | Except.error e =>
    [WorkerEffect.insertResponse token (FsResponse.Error e),
     WorkerEffect.setReadiness token]

/-- The closure `write_file` submits to the pool, as a function of the
outcome of `std::fs::write(filename, contents)`. -/
def write_worker (token : Nat) (outcome : Except String Unit) :
    List WorkerEffect :=
  match outcome with
  | Except.ok () =>
    [WorkerEffect.insertResponse token FsResponse.Success,
     WorkerEffect.setReadiness token]
  | Except.error e =>
    [WorkerEffect.insertResponse token (FsResponse.Error e),
     WorkerEffect.setReadiness token]

/-- The closure `remove_file` submits to the pool, as a function of the
outcome of `std::fs::remove_file(filename)`. -/
def remove_worker (token : Nat) (outcome : Except String Unit) :
    List WorkerEffect :=
  match outcome with
  | Except.ok () =>
    [WorkerEffect.insertResponse token FsResponse.Success,
     WorkerEffect.setReadiness token]
  | Except.error e =>
    [WorkerEffect.insertResponse token (FsResponse.Error e),
     WorkerEffect.setReadiness token]

/-- The number of response-store insertions in a worker's effect
trace. -/
def insertCount (trace : List WorkerEffect) : Nat :=
  (trace.filter fun w =>
    match w with
    | WorkerEffect.insertResponse _ _ => true
    | WorkerEffect.setReadiness _ => false).length

/-- C6: each worker closure classifies the syscall outcome —
`Read(content)` for a successful read, `Success` for a successful write
or remove, `Error(message)` with the platform error's textual rendering
for any failure — and inserts that response into the response store
under its token strictly before raising the readiness signal,
performing exactly one insertion. -/
theorem worker_classifies_inserts_then_signals (token : Nat) (s e : String) :
    read_worker token (Except.ok s) =
      [WorkerEffect.insertResponse token (FsResponse.Read s),
       WorkerEffect.setReadiness token] ∧
    read_worker token (Except.error e) =
      [WorkerEffect.insertResponse token (FsResponse.Error e),
       WorkerEffect.setReadiness token] ∧
    write_worker token (Except.ok ()) =
      [WorkerEffect.insertResponse token FsResponse.Success,
       WorkerEffect.setReadiness token] ∧
    write_worker token (Except.error e) =
      [WorkerEffect.insertResponse token (FsResponse.Error e),
       WorkerEffect.setReadiness token] ∧
    remove_worker token (Except.ok ()) =
      [WorkerEffect.insertResponse token FsResponse.Success,
       WorkerEffect.setReadiness token] ∧
    remove_worker token (Except.error e) =
      [WorkerEffect.insertResponse token (FsResponse.Error e),
       WorkerEffect.setReadiness token] ∧
    (∀ o : Except String String, insertCount (read_worker token o) = 1) ∧
    (∀ o : Except String Unit, insertCount (write_worker token o) = 1) ∧
    (∀ o : Except String Unit, insertCount (remove_worker token o) = 1) := by
  refine ⟨rfl, rfl, rfl, rfl, rfl, rfl, fun o => ?_, fun o => ?_, fun o => ?_⟩ <;>
    cases o <;> rfl

/-- C8: each builtin reads only the arguments it consumes — index 0 for
readFile and removeFile, indices 0 and 1 for writeFile — so a call with
extra trailing arguments behaves identically to the call with only the
consumed prefix; no arity check is performed. -/
theorem extra_args_ignored (agent : Agent) (args : List Value) :
    read_file agent args = read_file agent (args.take 1) ∧
    remove_file agent args = remove_file agent (args.take 1) ∧
    write_file agent args = write_file agent (args.take 2) := by
  match args with
  | [] => exact ⟨rfl, rfl, rfl⟩
  | [v] => exact ⟨rfl, rfl, rfl⟩
  | v :: w :: rest => exact ⟨rfl, rfl, rfl⟩

/-- The string content of `args.get(i)` when that argument exists and is
a string, `none` otherwise (the shape the builtins' `if let` tests). -/
def getString (args : List Value) (i : Nat) : Option String :=
  match args.get? i with
  | some (Value.string s) => some s
  | _ => none

/-- C9: validation is ordered and the messages are fixed: a missing or
non-string first argument makes readFile, writeFile and removeFile all
fail with `"filename must be a string"` (for writeFile regardless of
the second argument); a string first argument with a missing or
non-string second makes writeFile fail with
`"contents must be a string"`. -/
theorem validation_error_messages (agent : Agent) (args : List Value) :
    (getString args 0 = none →
      (read_file agent args).result =
        Except.error (new_error "filename must be a string") ∧
      (remove_file agent args).result =
        Except.error (new_error "filename must be a string") ∧
      (write_file agent args).result =
        Except.error (new_error "filename must be a string")) ∧
    (∀ s, getString args 0 = some s → getString args 1 = none →
      (write_file agent args).result =
        Except.error (new_error "contents must be a string")) := by
  constructor
  · intro h
    match args with
    | [] => exact ⟨rfl, rfl, rfl⟩
    | v :: rest =>
      cases v with
      | string s => simp [getString, List.get?] at h
      | error s => exact ⟨rfl, rfl, rfl⟩
      | promise p => exact ⟨rfl, rfl, rfl⟩
      | other n => exact ⟨rfl, rfl, rfl⟩
  · intro s h0 h1
    match args with
    | [] => simp [getString, List.get?] at h0
    | v :: rest =>
      cases v with
      | string t =>
        match rest with
        | [] => rfl
        | w :: rest2 =>
          cases w with
          | string u => simp [getString, List.get?] at h1
          | error u => rfl
          | promise p => rfl
          | other n => rfl
      | error t => simp [getString, List.get?] at h0
      | promise p => simp [getString, List.get?] at h0
      | other n => simp [getString, List.get?] at h0

/-- An agent with an empty token registry whose promise constructor
succeeds with `pOk`; used by concrete instantiations. -/
def agentOk : Agent := ⟨[], Except.ok pOk⟩

/-- Witness for C9 at concrete invalid calls. -/
theorem validation_error_messages_witness :
    (read_file agentOk []).result =
      Except.error (new_error "filename must be a string") ∧
    (write_file agentOk [Value.string "f", Value.other 0]).result =
      Except.error (new_error "contents must be a string") :=
  ⟨((validation_error_messages agentOk []).1 rfl).1,
   (validation_error_messages agentOk
     [Value.string "f", Value.other 0]).2 "f" rfl rfl⟩

/-- C4 counterexample: a call to readFile with two arguments has the
wrong argument count, yet it is not rejected — it returns a promise and
dispatches work to the pool, contradicting the claim that every
wrong-count call fails synchronously with no async machinery. -/
theorem read_file_wrong_count_not_rejected :
    (read_file agentOk [Value.string "a", Value.string "b"]).result =
      Except.ok (Value.promise pOk) ∧
    (read_file agentOk [Value.string "a", Value.string "b"]).effects ≠ [] := by
  exact ⟨rfl, by decide⟩

/-- C4 (amended): whenever a required argument is absent or not a
string (the path for readFile/removeFile; the path or the contents for
writeFile), the builtin fails synchronously with a type error and
performs no async machinery — no promise is created, nothing is
registered, nothing is dispatched (empty effect trace, registry
unchanged); extra trailing arguments are not checked. -/
theorem fs_invalid_args_no_async_machinery (agent : Agent) (args : List Value) :
    (getString args 0 = none →
      read_file agent args =
        ⟨Except.error (new_error "filename must be a string"), agent.mio_map, []⟩ ∧
      remove_file agent args =
        ⟨Except.error (new_error "filename must be a string"), agent.mio_map, []⟩ ∧
      write_file agent args =
        ⟨Except.error (new_error "filename must be a string"), agent.mio_map, []⟩) ∧
    (∀ s, getString args 0 = some s → getString args 1 = none →
      write_file agent args =
        ⟨Except.error (new_error "contents must be a string"), agent.mio_map, []⟩) := by
  constructor
  · intro h
    match args with
    | [] => exact ⟨rfl, rfl, rfl⟩
    | v :: rest =>
      cases v with
      | string s => simp [getString, List.get?] at h
      | error s => exact ⟨rfl, rfl, rfl⟩
      | promise p => exact ⟨rfl, rfl, rfl⟩
      | other n => exact ⟨rfl, rfl, rfl⟩
  · intro s h0 h1
    match args with
    | [] => simp [getString, List.get?] at h0
    | v :: rest =>
      cases v with
      | string t =>
        match rest with
        | [] => rfl
        | w :: rest2 =>
          cases w with
          | string u => simp [getString, List.get?] at h1
          | error u => rfl
          | promise p => rfl
          | other n => rfl
      | error t => simp [getString, List.get?] at h0
      | promise p => simp [getString, List.get?] at h0
      | other n => simp [getString, List.get?] at h0

/-- Witness for the amended C4 at concrete invalid calls. -/
theorem fs_invalid_args_witness :
    read_file agentOk [Value.other 0] =
      ⟨Except.error (new_error "filename must be a string"), [], []⟩ ∧
    write_file agentOk [Value.string "a", Value.other 0] =
      ⟨Except.error (new_error "contents must be a string"), [], []⟩ :=
  ⟨((fs_invalid_args_no_async_machinery agentOk [Value.other 0]).1 rfl).1,
   (fs_invalid_args_no_async_machinery agentOk
     [Value.string "a", Value.other 0]).2 "a" rfl rfl⟩

/-- C5: with valid arguments, the promise capability is obtained before
any reactor registration: if `new_promise_capability` fails, the builtin
returns that failure with an empty effect trace and an unchanged
registry (no orphaned registration); if it succeeds, the returned value
is that same promise, and the trace shows the capability created before
the registration, the registry insert, and the dispatch. -/
theorem fs_promise_before_registration (agent : Agent) (args : List Value)
    (f : String) (hf : args.get? 0 = some (Value.string f)) :
    (∀ e, agent.newPromise = Except.error e →
      read_file agent args = ⟨Except.error e, agent.mio_map, []⟩ ∧
      remove_file agent args = ⟨Except.error e, agent.mio_map, []⟩) ∧
    (∀ p, agent.newPromise = Except.ok p →
      read_file agent args =
        ⟨Except.ok (Value.promise p),
         mapInsert (allocToken agent.mio_map) p agent.mio_map,
         [Effect.promiseCreate p, Effect.mioRegister (allocToken agent.mio_map),
          Effect.mioMapInsert (allocToken agent.mio_map) p,
          Effect.poolExecute WorkerKind.read (allocToken agent.mio_map) [f]]⟩ ∧
      remove_file agent args =
        ⟨Except.ok (Value.promise p),
         mapInsert (allocToken agent.mio_map) p agent.mio_map,
         [Effect.promiseCreate p, Effect.mioRegister (allocToken agent.mio_map),
          Effect.mioMapInsert (allocToken agent.mio_map) p,
          Effect.poolExecute WorkerKind.remove (allocToken agent.mio_map) [f]]⟩) ∧
    (∀ c, args.get? 1 = some (Value.string c) →
      (∀ e, agent.newPromise = Except.error e →
        write_file agent args = ⟨Except.error e, agent.mio_map, []⟩) ∧
      (∀ p, agent.newPromise = Except.ok p →
        write_file agent args =
          ⟨Except.ok (Value.promise p),
           mapInsert (allocToken agent.mio_map) p agent.mio_map,
           [Effect.promiseCreate p, Effect.mioRegister (allocToken agent.mio_map),
            Effect.mioMapInsert (allocToken agent.mio_map) p,
            Effect.poolExecute WorkerKind.write (allocToken agent.mio_map) [f, c]]⟩)) := by
  match args with
  | [] => simp [List.get?] at hf
  | v :: rest =>
    have hv : v = Value.string f := by
      simpa [List.get?] using hf
    subst hv
    refine ⟨fun e he => ?_, fun p hp => ?_, fun c hc => ?_⟩
    · exact ⟨by simp [read_file, he], by simp [remove_file, he]⟩
    · exact ⟨by simp [read_file, hp], by simp [remove_file, hp]⟩
    · match rest with
      | [] => simp [List.get?] at hc
      | w :: rest2 =>
        have hw : w = Value.string c := by
          simpa [List.get?] using hc
        subst hw
        exact ⟨fun e he => by simp [write_file, he],
               fun p hp => by simp [write_file, hp]⟩

/-- An agent whose promise constructor fails with an error value;
used by concrete instantiations. -/
def agentFail : Agent := ⟨[], Except.error (Value.error "boom")⟩

/-- Witness for C5: a failing promise constructor yields the failure
with no effects, and a succeeding one returns that same promise with
creation traced before registration. -/
theorem fs_promise_before_registration_witness :
    read_file agentFail [Value.string "f"] =
      ⟨Except.error (Value.error "boom"), [], []⟩ ∧
    read_file agentOk [Value.string "f"] =
      ⟨Except.ok (Value.promise pOk), [(0, pOk)],
       [Effect.promiseCreate pOk, Effect.mioRegister 0,
        Effect.mioMapInsert 0 pOk,
        Effect.poolExecute WorkerKind.read 0 ["f"]]⟩ :=
  ⟨((fs_promise_before_registration agentFail [Value.string "f"] "f" rfl).1
      (Value.error "boom") rfl).1,
   ((fs_promise_before_registration agentOk [Value.string "f"] "f" rfl).2.1
      pOk rfl).1⟩

/-- Modelled from the spec: retirement of a pending operation from the
token registry.  The PendingOperation is "created when a builtin
dispatches work, removed when the operation is settled" (spec §3); the
settlement path that performs this removal lives in src/agent.rs, which
is not part of the sources under verification. -/
def retireToken (token : Nat) (m : MioMap) : MioMap :=
  m.filter (fun e => e.1 ≠ token)

/-- C2 refutation run: dispatch readFile twice (the registry then holds
tokens 0 and 1), settle and retire token 0, then dispatch a third
readFile.  The token allocated for the third operation is the registry
size, 1 — colliding with the still-pending second operation — and the
registry insert overwrites that pending entry, losing its promise. -/
theorem token_collision_after_retirement :
    (read_file { mio_map := (read_file agentOk [Value.string "a"]).mio_map,
                 newPromise := Except.ok pOk } [Value.string "b"]).mio_map =
      [(0, pOk), (1, pOk)] ∧
    allocToken (retireToken 0 [(0, pOk), (1, pOk)]) = 1 ∧
    (retireToken 0 [(0, pOk), (1, pOk)]).any (fun e => e.1 = 1) = true ∧
    (read_file { mio_map := retireToken 0 [(0, pOk), (1, pOk)],
                 newPromise := Except.ok ⟨1, true, true⟩ }
       [Value.string "c"]).mio_map = [(1, ⟨1, true, true⟩)] := by
  refine ⟨?_, ?_, ?_, ?_⟩ <;> decide

/-- The interpreter execution context of a builtin call.  Modelled from
the spec: the evaluator is an external collaborator (§1); the context
carries the call's receiver, its `this` value, which `get_this`
returns (`Context::get_this` lives in src/interpreter.rs, not among the
sources under verification). -/
structure Context where
  thisValue : Value
deriving DecidableEq, Repr

/-- Modelled from the spec: `Context::get_this` (src/interpreter.rs) —
the accessor yielding the call's receiver. -/
def Context.get_this (ctx : Context) (_agent : Agent) : Except Value Value :=
  Except.ok ctx.thisValue

/-- `iterator` from src/intrinsics/async_iterator_prototype.rs: ignores
its argument vector and returns `ctx.get_this(agent)`. -/
def iterator (agent : Agent) (_args : List Value) (ctx : Context) :
    Except Value Value :=
  ctx.get_this agent

/-- A property key of the async-iterator prototype: a well-known symbol
looked up by name (`agent.well_known_symbol("asyncIterator")`). -/
inductive ObjectKey where
  | wellKnownSymbol : String → ObjectKey
deriving DecidableEq, Repr

/-- `create_async_iterator_prototype` from
src/intrinsics/async_iterator_prototype.rs: the prototype's own
properties — the builtin function `iterator`, installed under the
well-known `asyncIterator` symbol. -/
def create_async_iterator_prototype :
    List (ObjectKey × (Agent → List Value → Context → Except Value Value)) :=
  [(ObjectKey.wellKnownSymbol "asyncIterator", iterator)]

/-- C10: the function installed on the async-iterator prototype under
the well-known `asyncIterator` symbol returns its receiver (the `this`
value) unchanged, for every receiver and regardless of the arguments
passed. -/
theorem async_iterator_returns_receiver
    (f : Agent → List Value → Context → Except Value Value)
    (hf : (ObjectKey.wellKnownSymbol "asyncIterator", f) ∈
      create_async_iterator_prototype)
    (agent : Agent) (args : List Value) (ctx : Context) :
    f agent args ctx = Except.ok ctx.thisValue := by
  simp [create_async_iterator_prototype] at hf
  subst hf
  rfl

/-- Witness for C10 at a concrete receiver and a nonempty argument
vector. -/
theorem async_iterator_returns_receiver_witness :
    iterator agentOk [Value.other 7] ⟨Value.string "recv"⟩ =
      Except.ok (Value.string "recv") :=
  async_iterator_returns_receiver iterator (List.Mem.head _) agentOk
    [Value.other 7] ⟨Value.string "recv"⟩
